import Mathlib

/-!
Shallow embedding of the playlist catalog of `src/music_playlist_manager.py`
(class `PlaylistManager`).  The Python dict `self.playlist` is an
insertion-ordered mapping from song title to `{"artist": ..., "genre": ...}`;
we model it as an association list in insertion order.  Each mutating method
is a pure function from the catalog state to a `(message, new state)` pair,
mirroring the Python methods, which catch every raised exception and return
its message as a string.  `view_playlist` is a pure read returning only a
string.
-/

namespace MusicPlaylist

/-- Python's `str.strip()` whitespace set: space, tab, newline, carriage
return, vertical tab, form feed. -/
def isPyWhitespace (c : Char) : Bool :=
  c == ' ' || c == '\t' || c == '\n' || c == '\r' || c == '\x0b' || c == '\x0c'

/-- Python's `str.strip()`: drop leading and trailing whitespace. -/
def pyStrip (s : String) : String :=
  ⟨List.rdropWhile isPyWhitespace (List.dropWhile isPyWhitespace s.data)⟩

/-- The value stored under a title: `{"artist": ..., "genre": ...}`. -/
structure SongRecord where
  artist : String
  genre : String
deriving DecidableEq, Repr

/-- The state of `self.playlist`: titles with their records, in insertion
order, as a Python dict is. -/
abbrev Playlist := List (String × SongRecord)

/-- `title in self.playlist`. -/
def hasKey (pl : Playlist) (t : String) : Bool :=
  pl.any (fun e => e.1 == t)

/-- `PlaylistManager.add_song`: validate, trim, reject empties, reject
duplicates, else append the new entry (a Python dict adds new keys at the
end of iteration order). -/
def add_song (pl : Playlist) (title artist genre : String) : String × Playlist :=
  let t := pyStrip title
  let a := pyStrip artist
  let g := pyStrip genre
  if t = "" || a = "" || g = "" then
    ("Title, artist, and genre cannot be empty", pl)
  else if hasKey pl t then
    ("Song '" ++ t ++ "' already exists!", pl)
  else
    ("Song '" ++ t ++ "' added successfully!", pl ++ [(t, ⟨a, g⟩)])

/-- `PlaylistManager.view_playlist`: the loop body appends
`"Title: {title}\n"`, `"Artist: {artist}\n"`, `"Genre: {genre}\n\n"` for
each entry in iteration order; an empty playlist yields the caught error
message. -/
def view_playlist (pl : Playlist) : String :=
  if pl.isEmpty then "Playlist is empty"
  else
    pl.foldl
      (fun acc e =>
        acc ++ ("Title: " ++ e.1 ++ "\n")
            ++ ("Artist: " ++ e.2.artist ++ "\n")
            ++ ("Genre: " ++ e.2.genre ++ "\n\n"))
      ""

/-- The two sequential in-place field updates of `update_song`: an optional
field, when present and non-empty after trimming, overwrites the stored
field; otherwise it is skipped. -/
def update_record (r : SongRecord) (artist genre : Option String) : SongRecord :=
  let r1 :=
    match artist with
    | none => r
    | some a => let a := pyStrip a; if a = "" then r else { r with artist := a }
  match genre with
  | none => r1
  | some g => let g := pyStrip g; if g = "" then r1 else { r1 with genre := g }

/-- `PlaylistManager.update_song`: trim the title, fail if absent, else
update the (unique) entry under that title in place. -/
def update_song (pl : Playlist) (title : String) (artist genre : Option String) :
    String × Playlist :=
  let t := pyStrip title
  if hasKey pl t then
    ("Song '" ++ t ++ "' updated successfully!",
     pl.map (fun e => if e.1 = t then (e.1, update_record e.2 artist genre) else e))
  else
    ("Song '" ++ t ++ "' not found in playlist!", pl)

/-- `del self.playlist[title]`: remove the (unique) entry under a key. -/
def eraseKey (t : String) : Playlist → Playlist
  | [] => []
  | e :: rest => if e.1 = t then rest else e :: eraseKey t rest

/-- `PlaylistManager.delete_song`: trim the title, fail if absent, else
delete the entry. -/
def delete_song (pl : Playlist) (title : String) : String × Playlist :=
  let t := pyStrip title
  if hasKey pl t then
    ("Song '" ++ t ++ "' deleted successfully!", eraseKey t pl)
  else
    ("Song '" ++ t ++ "' not found in playlist!", pl)

/-! ### Helper lemmas about `pyStrip` -/

/-- A prefix of a list with no droppable head is itself not droppable. -/
lemma dropWhile_eq_self_of_prefix {α : Type} {p : α → Bool} {m X : List α}
    (hm : List.dropWhile p m = m) (hpre : X <+: m) : List.dropWhile p X = X := by
  cases X with
  | nil => rfl
  | cons a X2 =>
      obtain ⟨tail, htail⟩ := hpre
      have ha : p a = false := by
        by_contra hpa
        rw [Bool.not_eq_false] at hpa
        rw [← htail, List.cons_append, List.dropWhile_cons, if_pos hpa] at hm
        have hlen := congrArg List.length hm
        have hle := (List.dropWhile_suffix p (l := X2 ++ tail)).sublist.length_le
        simp only [List.length_cons] at hlen
        omega
      rw [List.dropWhile_cons, if_neg (by simp [ha])]

/-- Stripping the front of a both-ends-stripped list leaves it unchanged:
the first surviving character was already non-whitespace. -/
lemma dropWhile_rdropWhile_dropWhile {α : Type} (p : α → Bool) (l : List α) :
    List.dropWhile p (List.rdropWhile p (List.dropWhile p l)) =
      List.rdropWhile p (List.dropWhile p l) :=
  dropWhile_eq_self_of_prefix (List.dropWhile_idempotent p l)
    (List.rdropWhile_prefix p (List.dropWhile p l))

/-- `str.strip()` is idempotent. -/
lemma pyStrip_idem (s : String) : pyStrip (pyStrip s) = pyStrip s := by
  unfold pyStrip
  have h1 := dropWhile_rdropWhile_dropWhile isPyWhitespace s.data
  simp only [h1, List.rdropWhile_idempotent]

/-! ### Helper lemmas about `hasKey` and `eraseKey` -/

lemma hasKey_iff_mem_keys {pl : Playlist} {t : String} :
    hasKey pl t = true ↔ t ∈ pl.map Prod.fst := by
  simp only [hasKey, List.any_eq_true, beq_iff_eq, List.mem_map]

lemma hasKey_cons (e : String × SongRecord) (rest : Playlist) (t : String) :
    hasKey (e :: rest) t = ((e.1 == t) || hasKey rest t) := rfl

lemma eraseKey_sublist (t : String) : ∀ pl : Playlist, (eraseKey t pl).Sublist pl := by
  intro pl
  induction pl with
  | nil => simp [eraseKey]
  | cons e rest ih =>
      rw [eraseKey]
      split
      · exact List.sublist_cons_self e rest
      · exact List.Sublist.cons₂ e ih

lemma length_eraseKey {t : String} : ∀ {pl : Playlist}, hasKey pl t = true →
    (eraseKey t pl).length + 1 = pl.length := by
  intro pl
  induction pl with
  | nil => intro h; simp [hasKey] at h
  | cons e rest ih =>
      intro h
      rw [eraseKey]
      by_cases he : e.1 = t
      · simp [he]
      · have hr : hasKey rest t = true := by
          rw [hasKey_cons] at h
          simpa [he] using h
        have := ih hr
        simp only [if_neg he, List.length_cons]
        omega

lemma mem_eraseKey_of_ne {t : String} {e : String × SongRecord} :
    ∀ {pl : Playlist}, e ∈ pl → e.1 ≠ t → e ∈ eraseKey t pl := by
  intro pl
  induction pl with
  | nil => intro h; simp at h
  | cons x rest ih =>
      intro h hne
      rw [eraseKey]
      rcases List.mem_cons.mp h with rfl | hmem
      · rw [if_neg hne]; exact List.mem_cons_self e _
      · split
        · exact hmem
        · exact List.mem_cons_of_mem x (ih hmem hne)

lemma hasKey_eraseKey_of_nodup {t : String} :
    ∀ {pl : Playlist}, (pl.map Prod.fst).Nodup → hasKey (eraseKey t pl) t = false := by
  intro pl
  induction pl with
  | nil => intro _; rfl
  | cons e rest ih =>
      intro hnd
      rw [List.map_cons, List.nodup_cons] at hnd
      obtain ⟨h1, h2⟩ := hnd
      rw [eraseKey]
      by_cases he : e.1 = t
      · rw [if_pos he]
        rw [Bool.eq_false_iff]
        intro hk
        exact h1 (by rw [he]; exact hasKey_iff_mem_keys.mp hk)
      · rw [if_neg he, hasKey_cons]
        simp [he, ih h2]

/-! ### View formatting -/

/-- One record's block as the spec describes it: title, artist and genre on
separate lines, with no trailing newline. -/
def blockOf (e : String × SongRecord) : String :=
  "Title: " ++ e.1 ++ "\n" ++ "Artist: " ++ e.2.artist ++ "\n" ++ "Genre: " ++ e.2.genre

/-- Blocks separated by a blank line (the separator "\n\n" closes the
previous block's last line and leaves one empty line). -/
def blocksJoined : List String → String
  | [] => ""
  | [b] => b
  | b :: c :: bs => b ++ "\n\n" ++ blocksJoined (c :: bs)

lemma blocksJoined_cons_of_ne_nil (x : String) {l : List String} (h : l ≠ []) :
    blocksJoined (x :: l) = x ++ "\n\n" ++ blocksJoined l := by
  cases l with
  | nil => exact absurd rfl h
  | cons c cs => rfl

/-- The text the `view_playlist` loop accumulates over a list of entries. -/
def joinBlocks : Playlist → String
  | [] => ""
  | e :: r =>
      ("Title: " ++ e.1 ++ "\n") ++ ("Artist: " ++ e.2.artist ++ "\n")
        ++ ("Genre: " ++ e.2.genre ++ "\n\n") ++ joinBlocks r

lemma view_foldl (pl : Playlist) (acc : String) :
    pl.foldl
      (fun acc e =>
        acc ++ ("Title: " ++ e.1 ++ "\n")
            ++ ("Artist: " ++ e.2.artist ++ "\n")
            ++ ("Genre: " ++ e.2.genre ++ "\n\n"))
      acc = acc ++ joinBlocks pl := by
  induction pl generalizing acc with
  | nil => simp [joinBlocks]
  | cons e r ih =>
      rw [List.foldl_cons, ih, joinBlocks]
      simp [String.append_assoc]

lemma joinBlocks_eq_blocks :
    ∀ pl : Playlist, pl ≠ [] →
      joinBlocks pl = blocksJoined (pl.map blockOf) ++ "\n\n" := by
  intro pl
  induction pl with
  | nil => intro h; exact absurd rfl h
  | cons e r ih =>
      intro _
      cases r with
      | nil =>
          show joinBlocks [e] = blocksJoined [blockOf e] ++ "\n\n"
          rw [joinBlocks, joinBlocks, blocksJoined, blockOf]
          simp only [String.append_assoc, String.append_empty]
      | cons e2 r2 =>
          have hb : blocksJoined (List.map blockOf (e :: e2 :: r2))
              = blockOf e ++ "\n\n" ++ blocksJoined (List.map blockOf (e2 :: r2)) := by
            rw [List.map_cons]
            exact blocksJoined_cons_of_ne_nil (blockOf e) (by simp)
          rw [joinBlocks, ih (by simp), hb, blockOf]
          simp only [String.append_assoc]

/-- The branch of `view_playlist` on a non-empty playlist, written as
blank-line-separated blocks with a trailing blank line. -/
lemma view_nonempty (pl : Playlist) (h : pl ≠ []) :
    view_playlist pl = blocksJoined (pl.map blockOf) ++ "\n\n" := by
  rw [view_playlist, if_neg (by simpa [List.isEmpty_iff] using h), view_foldl,
    String.empty_append, joinBlocks_eq_blocks pl h]

/-- Joining blocks of `l ++ [b]` puts `b` last. -/
lemma blocksJoined_concat (b : String) :
    ∀ l : List String, ∃ s, blocksJoined (l ++ [b]) = s ++ b := by
  intro l
  induction l with
  | nil => exact ⟨"", by simp [blocksJoined, String.empty_append]⟩
  | cons x xs ih =>
      obtain ⟨s, hs⟩ := ih
      refine ⟨x ++ "\n\n" ++ s, ?_⟩
      rw [List.cons_append, blocksJoined_cons_of_ne_nil x (by simp), hs]
      simp [String.append_assoc]

/-! ### The spec's field-independent description of update -/

/-- The spec's description of `update`: each optional field independently
overwrites the stored field exactly when it is provided and non-empty after
trimming, and is skipped otherwise. -/
def specUpdatedRecord (r : SongRecord) (artist genre : Option String) : SongRecord where
  artist :=
    match artist with
    | none => r.artist
    | some a => if pyStrip a = "" then r.artist else pyStrip a
  genre :=
    match genre with
    | none => r.genre
    | some g => if pyStrip g = "" then r.genre else pyStrip g

lemma update_record_eq_spec (r : SongRecord) (artist genre : Option String) :
    update_record r artist genre = specUpdatedRecord r artist genre := by
  rcases artist with _ | a <;> rcases genre with _ | g <;>
    simp only [update_record, specUpdatedRecord] <;>
    split_ifs <;> rfl

/-! ### The catalog invariant -/

/-- One record is well-formed: its key is its own trimmed form and is
non-empty, and both stored fields are non-empty after trimming. -/
def ValidEntry (e : String × SongRecord) : Prop :=
  pyStrip e.1 = e.1 ∧ e.1 ≠ "" ∧ pyStrip e.2.artist ≠ "" ∧ pyStrip e.2.genre ≠ ""

instance : DecidablePred ValidEntry := fun e => by
  unfold ValidEntry; infer_instance

/-- The catalog invariant: no two records share a title, and every record
is well-formed. -/
def Valid (pl : Playlist) : Prop :=
  (pl.map Prod.fst).Nodup ∧ ∀ e ∈ pl, ValidEntry e

instance : DecidablePred Valid := fun pl => by
  unfold Valid; infer_instance

/-- The catalog states reachable from the empty playlist through the
manager's mutating operations (`view_playlist` reads without mutating). -/
inductive Reachable : Playlist → Prop
  | init : Reachable []
  | add (pl : Playlist) (title artist genre : String) :
      Reachable pl → Reachable (add_song pl title artist genre).2
  | update (pl : Playlist) (title : String) (artist genre : Option String) :
      Reachable pl → Reachable (update_song pl title artist genre).2
  | delete (pl : Playlist) (title : String) :
      Reachable pl → Reachable (delete_song pl title).2

lemma valid_add (pl : Playlist) (title artist genre : String) (h : Valid pl) :
    Valid (add_song pl title artist genre).2 := by
  rw [add_song]
  split
  · exact h
  · split
    · exact h
    · rename_i hne hk
      simp only [Bool.or_eq_true, decide_eq_true_eq, not_or] at hne
      obtain ⟨⟨ht, ha⟩, hg⟩ := hne
      obtain ⟨hnd, hent⟩ := h
      constructor
      · rw [List.map_append, List.nodup_append]
        refine ⟨hnd, by simp, ?_⟩
        intro x hx hx2
        simp only [List.map_cons, List.map_nil, List.mem_singleton] at hx2
        subst hx2
        exact absurd (hasKey_iff_mem_keys.mpr hx) (by simpa using hk)
      · intro e he
        rcases List.mem_append.mp he with hmem | hnew
        · exact hent e hmem
        · simp only [List.mem_singleton] at hnew
          subst hnew
          exact ⟨pyStrip_idem title, ht, by rw [pyStrip_idem]; exact ha,
            by rw [pyStrip_idem]; exact hg⟩

lemma validEntry_update (e : String × SongRecord) (he : ValidEntry e)
    (artist genre : Option String) :
    ValidEntry (e.1, update_record e.2 artist genre) := by
  obtain ⟨h1, h2, h3, h4⟩ := he
  rw [update_record_eq_spec]
  refine ⟨h1, h2, ?_, ?_⟩
  · show pyStrip (specUpdatedRecord e.2 artist genre).artist ≠ ""
    rcases artist with _ | a
    · exact h3
    · show pyStrip (if pyStrip a = "" then e.2.artist else pyStrip a) ≠ ""
      by_cases ha : pyStrip a = ""
      · simp only [if_pos ha]; exact h3
      · simp only [if_neg ha, pyStrip_idem]; exact ha
  · show pyStrip (specUpdatedRecord e.2 artist genre).genre ≠ ""
    rcases genre with _ | g
    · exact h4
    · show pyStrip (if pyStrip g = "" then e.2.genre else pyStrip g) ≠ ""
      by_cases hg : pyStrip g = ""
      · simp only [if_pos hg]; exact h4
      · simp only [if_neg hg, pyStrip_idem]; exact hg

lemma valid_update (pl : Playlist) (title : String) (artist genre : Option String)
    (h : Valid pl) : Valid (update_song pl title artist genre).2 := by
  rw [update_song]
  split
  · obtain ⟨hnd, hent⟩ := h
    constructor
    · have : (pl.map
          (fun e => if e.1 = pyStrip title
            then (e.1, update_record e.2 artist genre) else e)).map Prod.fst
          = pl.map Prod.fst := by
        rw [List.map_map]
        refine List.map_congr_left ?_
        intro e _
        by_cases hc : e.1 = pyStrip title <;> simp [hc]
      rw [this]
      exact hnd
    · intro e he
      obtain ⟨x, hx, hxe⟩ := List.mem_map.mp he
      by_cases hc : x.1 = pyStrip title
      · rw [if_pos hc] at hxe
        subst hxe
        exact validEntry_update x (hent x hx) artist genre
      · rw [if_neg hc] at hxe
        subst hxe
        exact hent x hx
  · exact h

lemma valid_delete (pl : Playlist) (title : String) (h : Valid pl) :
    Valid (delete_song pl title).2 := by
  rw [delete_song]
  split
  · obtain ⟨hnd, hent⟩ := h
    have hsub := eraseKey_sublist (pyStrip title) pl
    exact ⟨(hsub.map Prod.fst).nodup hnd, fun e he => hent e (hsub.mem he)⟩
  · exact h

lemma reachable_implies_valid (pl : Playlist) (h : Reachable pl) : Valid pl := by
  induction h with
  | init => exact ⟨List.nodup_nil, by intro e he; simp at he⟩
  | add pl title artist genre _ ih => exact valid_add pl title artist genre ih
  | update pl title artist genre _ ih => exact valid_update pl title artist genre ih
  | delete pl title _ ih => exact valid_delete pl title ih

/-- Updating records in place never changes the key list. -/
lemma map_fst_update (pl : Playlist) (t : String) (artist genre : Option String) :
    ((pl.map (fun e => if e.1 = t then (e.1, update_record e.2 artist genre) else e)).map
        Prod.fst) = pl.map Prod.fst := by
  rw [List.map_map]
  refine List.map_congr_left ?_
  intro e _
  by_cases hc : e.1 = t <;> simp [hc]

/-! ### The claims -/

/-- C1: adding a fresh, fully non-empty (after trimming) song succeeds with
the success message built from the trimmed title, and the catalog becomes
the old catalog plus exactly that one appended entry, all previous entries
unchanged. -/
theorem add_fresh_valid (pl : Playlist) (title artist genre : String)
    (ht : pyStrip title ≠ "") (ha : pyStrip artist ≠ "") (hg : pyStrip genre ≠ "")
    (hk : hasKey pl (pyStrip title) = false) :
    (add_song pl title artist genre).1
        = "Song '" ++ pyStrip title ++ "' added successfully!" ∧
    (add_song pl title artist genre).2
        = pl ++ [(pyStrip title, ⟨pyStrip artist, pyStrip genre⟩)] := by
  simp [add_song, ht, ha, hg, hk]

theorem add_fresh_valid_witness :
    pyStrip " Song A " ≠ "" ∧ pyStrip "Artist1" ≠ "" ∧ pyStrip "Rock" ≠ "" ∧
    hasKey [] (pyStrip " Song A ") = false ∧
    (add_song [] " Song A " "Artist1" "Rock").1
        = "Song '" ++ pyStrip " Song A " ++ "' added successfully!" ∧
    (add_song [] " Song A " "Artist1" "Rock").2
        = [] ++ [(pyStrip " Song A ", ⟨pyStrip "Artist1", pyStrip "Rock"⟩)] :=
  ⟨by decide, by decide, by decide, by decide,
    add_fresh_valid [] " Song A " "Artist1" "Rock"
      (by decide) (by decide) (by decide) (by decide)⟩

/-- C2: every catalog reachable from the empty one satisfies the invariant
(trimmed, non-empty, duplicate-free keys; non-empty-after-trim stored
fields), and each mutating operation preserves the invariant
(`view_playlist` does not touch the state at all). -/
theorem catalog_invariant :
    (∀ pl : Playlist, Reachable pl → Valid pl) ∧
    (∀ (pl : Playlist) (title artist genre : String),
        Valid pl → Valid (add_song pl title artist genre).2) ∧
    (∀ (pl : Playlist) (title : String) (artist genre : Option String),
        Valid pl → Valid (update_song pl title artist genre).2) ∧
    (∀ (pl : Playlist) (title : String), Valid pl → Valid (delete_song pl title).2) :=
  ⟨reachable_implies_valid, valid_add, valid_update, valid_delete⟩

theorem catalog_invariant_witness :
    Valid ([] : Playlist) ∧ Valid ((add_song [] " A " "B" "C").2) :=
  ⟨catalog_invariant.1 [] Reachable.init,
   catalog_invariant.2.1 [] " A " "B" "C" (by decide)⟩

/-- C3 counterexample: the claim fails as stated.  With "A" already in the
catalog, `add("A", "", "")` returns the empty-field validation message,
not the duplicate message: the emptiness check runs before the duplicate
check. -/
theorem add_duplicate_counterexample :
    hasKey ([("A", ⟨"B", "C"⟩)] : Playlist) (pyStrip "A") = true ∧
    (add_song ([("A", ⟨"B", "C"⟩)] : Playlist) "A" "" "").1
        = "Title, artist, and genre cannot be empty" ∧
    (add_song ([("A", ⟨"B", "C"⟩)] : Playlist) "A" "" "").1
        ≠ "Song 'A' already exists!" ∧
    (add_song ([("A", ⟨"B", "C"⟩)] : Playlist) "A" "" "").2
        = ([("A", ⟨"B", "C"⟩)] : Playlist) := by
  decide

/-- C3 (amended): if the trimmed title is already a key and all three
fields are non-empty after trimming, add fails with the duplicate message,
regardless of which artist/genre values were supplied, and the catalog is
unchanged. -/
theorem add_duplicate (pl : Playlist) (title artist genre : String)
    (ht : pyStrip title ≠ "") (ha : pyStrip artist ≠ "") (hg : pyStrip genre ≠ "")
    (hk : hasKey pl (pyStrip title) = true) :
    (add_song pl title artist genre).1
        = "Song '" ++ pyStrip title ++ "' already exists!" ∧
    (add_song pl title artist genre).2 = pl := by
  simp [add_song, ht, ha, hg, hk]

theorem add_duplicate_witness :
    pyStrip "A" ≠ "" ∧ pyStrip "Artist2" ≠ "" ∧ pyStrip "Pop" ≠ "" ∧
    hasKey ([("A", ⟨"B", "C"⟩)] : Playlist) (pyStrip "A") = true ∧
    (add_song ([("A", ⟨"B", "C"⟩)] : Playlist) "A" "Artist2" "Pop").1
        = "Song '" ++ pyStrip "A" ++ "' already exists!" ∧
    (add_song ([("A", ⟨"B", "C"⟩)] : Playlist) "A" "Artist2" "Pop").2
        = ([("A", ⟨"B", "C"⟩)] : Playlist) :=
  ⟨by decide, by decide, by decide, by decide,
    add_duplicate [("A", ⟨"B", "C"⟩)] "A" "Artist2" "Pop"
      (by decide) (by decide) (by decide) (by decide)⟩

/-- C4: adding with any field empty after trimming fails with the
validation message and leaves the catalog unchanged. -/
theorem add_empty_field (pl : Playlist) (title artist genre : String)
    (h : pyStrip title = "" ∨ pyStrip artist = "" ∨ pyStrip genre = "") :
    (add_song pl title artist genre).1 = "Title, artist, and genre cannot be empty" ∧
    (add_song pl title artist genre).2 = pl := by
  rcases h with h | h | h <;> simp [add_song, h]

theorem add_empty_field_witness :
    (pyStrip "  " = "" ∨ pyStrip "B" = "" ∨ pyStrip "C" = "") ∧
    (add_song ([] : Playlist) "  " "B" "C").1
        = "Title, artist, and genre cannot be empty" ∧
    (add_song ([] : Playlist) "  " "B" "C").2 = ([] : Playlist) :=
  ⟨by decide, add_empty_field [] "  " "B" "C" (by decide)⟩

/-- C5: viewing the empty catalog yields the empty-playlist message; viewing
a non-empty catalog yields one block per record in catalog order, blocks
separated by a blank line (with a trailing blank line, cf. C9).
`view_playlist` is a pure function of the state, so the call cannot change
the catalog. -/
theorem view_playlist_spec :
    view_playlist [] = "Playlist is empty" ∧
    ∀ pl : Playlist, pl ≠ [] →
      view_playlist pl = blocksJoined (pl.map blockOf) ++ "\n\n" :=
  ⟨rfl, view_nonempty⟩

theorem view_playlist_spec_witness :
    ([("A", ⟨"B", "C"⟩), ("D", ⟨"E", "F"⟩)] : Playlist) ≠ [] ∧
    view_playlist ([("A", ⟨"B", "C"⟩), ("D", ⟨"E", "F"⟩)] : Playlist)
        = blocksJoined (([("A", ⟨"B", "C"⟩), ("D", ⟨"E", "F"⟩)] : Playlist).map blockOf)
            ++ "\n\n" :=
  ⟨by decide, view_playlist_spec.2 [("A", ⟨"B", "C"⟩), ("D", ⟨"E", "F"⟩)] (by decide)⟩

/-- C6: updating an existing title always reports success; each optional
field independently overwrites its stored field exactly when provided and
non-empty after trimming; the key list is unchanged and every record under
another key is unchanged. -/
theorem update_found (pl : Playlist) (title : String) (artist genre : Option String)
    (hk : hasKey pl (pyStrip title) = true) :
    (update_song pl title artist genre).1
        = "Song '" ++ pyStrip title ++ "' updated successfully!" ∧
    (update_song pl title artist genre).2
        = pl.map (fun e =>
            if e.1 = pyStrip title then (e.1, specUpdatedRecord e.2 artist genre) else e) ∧
    ((update_song pl title artist genre).2).map Prod.fst = pl.map Prod.fst ∧
    ∀ e ∈ pl, e.1 ≠ pyStrip title → e ∈ (update_song pl title artist genre).2 := by
  refine ⟨by simp [update_song, hk], ?_, ?_, ?_⟩
  · simp only [update_song, hk, if_true]
    exact List.map_congr_left fun e _ => by
      by_cases hc : e.1 = pyStrip title <;> simp [hc, update_record_eq_spec]
  · simp only [update_song, hk, if_true]
    exact map_fst_update pl (pyStrip title) artist genre
  · intro e he hne
    simp only [update_song, hk, if_true]
    exact List.mem_map.mpr ⟨e, he, by rw [if_neg hne]⟩

theorem update_found_witness :
    hasKey ([("A", ⟨"B", "C"⟩)] : Playlist) (pyStrip " A ") = true ∧
    (update_song ([("A", ⟨"B", "C"⟩)] : Playlist) " A " (some " X ") (some "  ")).1
        = "Song '" ++ pyStrip " A " ++ "' updated successfully!" ∧
    (update_song ([("A", ⟨"B", "C"⟩)] : Playlist) " A " (some " X ") (some "  ")).2
        = ([("A", ⟨"B", "C"⟩)] : Playlist).map (fun e =>
            if e.1 = pyStrip " A "
            then (e.1, specUpdatedRecord e.2 (some " X ") (some "  ")) else e) ∧
    ((update_song ([("A", ⟨"B", "C"⟩)] : Playlist) " A "
        (some " X ") (some "  ")).2).map Prod.fst
        = ([("A", ⟨"B", "C"⟩)] : Playlist).map Prod.fst ∧
    ∀ e ∈ ([("A", ⟨"B", "C"⟩)] : Playlist), e.1 ≠ pyStrip " A " →
      e ∈ (update_song ([("A", ⟨"B", "C"⟩)] : Playlist) " A "
            (some " X ") (some "  ")).2 :=
  ⟨by decide, update_found [("A", ⟨"B", "C"⟩)] " A " (some " X ") (some "  ") (by decide)⟩

/-- C7: updating a title that is not in the catalog fails with the
not-found message and leaves the catalog unchanged. -/
theorem update_not_found (pl : Playlist) (title : String) (artist genre : Option String)
    (hk : hasKey pl (pyStrip title) = false) :
    (update_song pl title artist genre).1
        = "Song '" ++ pyStrip title ++ "' not found in playlist!" ∧
    (update_song pl title artist genre).2 = pl := by
  simp [update_song, hk]

theorem update_not_found_witness :
    hasKey ([("A", ⟨"B", "C"⟩)] : Playlist) (pyStrip "Z") = false ∧
    (update_song ([("A", ⟨"B", "C"⟩)] : Playlist) "Z" (some "X") none).1
        = "Song '" ++ pyStrip "Z" ++ "' not found in playlist!" ∧
    (update_song ([("A", ⟨"B", "C"⟩)] : Playlist) "Z" (some "X") none).2
        = ([("A", ⟨"B", "C"⟩)] : Playlist) :=
  ⟨by decide, update_not_found [("A", ⟨"B", "C"⟩)] "Z" (some "X") none (by decide)⟩

/-- C8: deleting an existing (trimmed) title succeeds with the deletion
message, removes exactly that one record (the catalog shrinks by one, every
record under another title survives, no new record appears) and
immediately repeating the delete fails with the not-found message without
touching the state; deleting an absent title fails with the not-found
message and leaves the catalog unchanged. -/
theorem delete_song_spec (pl : Playlist) (title : String)
    (hnd : (pl.map Prod.fst).Nodup) :
    (hasKey pl (pyStrip title) = true →
      (delete_song pl title).1
          = "Song '" ++ pyStrip title ++ "' deleted successfully!" ∧
      (delete_song pl title).2 = eraseKey (pyStrip title) pl ∧
      ((delete_song pl title).2).length + 1 = pl.length ∧
      (∀ e ∈ pl, e.1 ≠ pyStrip title → e ∈ (delete_song pl title).2) ∧
      (∀ e ∈ (delete_song pl title).2, e ∈ pl) ∧
      hasKey ((delete_song pl title).2) (pyStrip title) = false ∧
      (delete_song ((delete_song pl title).2) title).1
          = "Song '" ++ pyStrip title ++ "' not found in playlist!" ∧
      (delete_song ((delete_song pl title).2) title).2 = (delete_song pl title).2) ∧
    (hasKey pl (pyStrip title) = false →
      (delete_song pl title).1
          = "Song '" ++ pyStrip title ++ "' not found in playlist!" ∧
      (delete_song pl title).2 = pl) := by
  constructor
  · intro hk
    have hstate : (delete_song pl title).2 = eraseKey (pyStrip title) pl := by
      simp [delete_song, hk]
    have hgone : hasKey (eraseKey (pyStrip title) pl) (pyStrip title) = false :=
      hasKey_eraseKey_of_nodup hnd
    refine ⟨by simp [delete_song, hk], hstate, ?_, ?_, ?_, ?_, ?_, ?_⟩
    · rw [hstate]; exact length_eraseKey hk
    · intro e he hne
      rw [hstate]; exact mem_eraseKey_of_ne he hne
    · intro e he
      rw [hstate] at he
      exact (eraseKey_sublist (pyStrip title) pl).mem he
    · rw [hstate]; exact hgone
    · rw [hstate]; simp [delete_song, hgone]
    · rw [hstate]; simp [delete_song, hgone]
  · intro hk
    simp [delete_song, hk]

theorem delete_song_spec_witness :
    (([("A", ⟨"B", "C"⟩), ("D", ⟨"E", "F"⟩)] : Playlist).map Prod.fst).Nodup ∧
    hasKey ([("A", ⟨"B", "C"⟩), ("D", ⟨"E", "F"⟩)] : Playlist) (pyStrip "A") = true ∧
    (delete_song ([("A", ⟨"B", "C"⟩), ("D", ⟨"E", "F"⟩)] : Playlist) "A").1
        = "Song '" ++ pyStrip "A" ++ "' deleted successfully!" ∧
    (delete_song ((delete_song ([("A", ⟨"B", "C"⟩), ("D", ⟨"E", "F"⟩)] : Playlist)
        "A").2) "A").1
        = "Song '" ++ pyStrip "A" ++ "' not found in playlist!" :=
  ⟨by decide, by decide,
    ((delete_song_spec [("A", ⟨"B", "C"⟩), ("D", ⟨"E", "F"⟩)] "A" (by decide)).1
      (by decide)).1,
    ((((((((delete_song_spec [("A", ⟨"B", "C"⟩), ("D", ⟨"E", "F"⟩)] "A"
      (by decide)).1 (by decide)).2).2).2).2).2).2).1⟩

/-- C9: on every non-empty catalog, the string returned by the view ends
with two consecutive newline characters: a trailing blank line follows the
final block as well, not only the blocks in between. -/
theorem view_trailing_blank (pl : Playlist) (h : pl ≠ []) :
    ∃ s : String, view_playlist pl = s ++ "\n\n" :=
  ⟨blocksJoined (pl.map blockOf), view_nonempty pl h⟩

theorem view_trailing_blank_witness :
    ([("A", ⟨"B", "C"⟩)] : Playlist) ≠ [] ∧
    ∃ s : String, view_playlist ([("A", ⟨"B", "C"⟩)] : Playlist) = s ++ "\n\n" :=
  ⟨by decide, view_trailing_blank [("A", ⟨"B", "C"⟩)] (by decide)⟩

/-- C10: deleting an existing title and re-adding it (with valid fields)
appends the re-added record at the end: it enumerates last, and is the
final block of a subsequent view.  The record's original position is not
restored. -/
theorem delete_then_add_enumerates_last (pl : Playlist) (t a g : String)
    (hnd : (pl.map Prod.fst).Nodup)
    (ht : pyStrip t = t) (hne : t ≠ "")
    (hk : hasKey pl t = true)
    (ha : pyStrip a ≠ "") (hg : pyStrip g ≠ "") :
    (delete_song pl t).1 = "Song '" ++ t ++ "' deleted successfully!" ∧
    (add_song (delete_song pl t).2 t a g).1
        = "Song '" ++ t ++ "' added successfully!" ∧
    (add_song (delete_song pl t).2 t a g).2
        = eraseKey t pl ++ [(t, ⟨pyStrip a, pyStrip g⟩)] ∧
    ((add_song (delete_song pl t).2 t a g).2).getLast?
        = some (t, ⟨pyStrip a, pyStrip g⟩) ∧
    ∃ s : String, view_playlist (add_song (delete_song pl t).2 t a g).2
        = s ++ (blockOf (t, ⟨pyStrip a, pyStrip g⟩) ++ "\n\n") := by
  have hstate : (delete_song pl t).2 = eraseKey t pl := by
    simp [delete_song, ht, hk]
  have hgone : hasKey (eraseKey t pl) t = false :=
    hasKey_eraseKey_of_nodup hnd
  have hadd : (add_song (delete_song pl t).2 t a g).2
      = eraseKey t pl ++ [(t, ⟨pyStrip a, pyStrip g⟩)] := by
    rw [hstate]
    simp [add_song, ht, hne, ha, hg, hgone]
  refine ⟨by simp [delete_song, ht, hk], ?_, hadd, ?_, ?_⟩
  · rw [hstate]
    simp [add_song, ht, hne, ha, hg, hgone]
  · rw [hadd]
    exact List.getLast?_concat _
  · rw [hadd]
    have hnil : eraseKey t pl ++ [(t, (⟨pyStrip a, pyStrip g⟩ : SongRecord))] ≠ [] := by
      simp
    rw [view_nonempty _ hnil, List.map_append, List.map_cons, List.map_nil]
    obtain ⟨s, hs⟩ := blocksJoined_concat
      (blockOf (t, ⟨pyStrip a, pyStrip g⟩)) ((eraseKey t pl).map blockOf)
    rw [hs, String.append_assoc]
    exact ⟨s, rfl⟩

theorem delete_then_add_enumerates_last_witness :
    (([("A", ⟨"B", "C"⟩), ("D", ⟨"E", "F"⟩)] : Playlist).map Prod.fst).Nodup ∧
    pyStrip "A" = "A" ∧ ("A" : String) ≠ "" ∧
    hasKey ([("A", ⟨"B", "C"⟩), ("D", ⟨"E", "F"⟩)] : Playlist) "A" = true ∧
    pyStrip "X" ≠ "" ∧ pyStrip "Y" ≠ "" ∧
    (add_song (delete_song ([("A", ⟨"B", "C"⟩), ("D", ⟨"E", "F"⟩)] : Playlist)
        "A").2 "A" "X" "Y").2
        = eraseKey "A" ([("A", ⟨"B", "C"⟩), ("D", ⟨"E", "F"⟩)] : Playlist)
            ++ [("A", ⟨pyStrip "X", pyStrip "Y"⟩)] :=
  ⟨by decide, by decide, by decide, by decide, by decide, by decide,
    ((delete_then_add_enumerates_last [("A", ⟨"B", "C"⟩), ("D", ⟨"E", "F"⟩)]
        "A" "X" "Y" (by decide) (by decide) (by decide) (by decide) (by decide)
        (by decide)).2).2.1⟩

end MusicPlaylist
